import Mathlib

/-!
Verification development for the WHAM real-time webcam demo pipeline
(realtimeDemo.py).  The pipeline is shallowly embedded as a state machine:
the fields of `WPState` mirror the attributes of `WebcamProcessor`, and
`step` executes one atomic iteration of one of the three loops
(`_capture_frames`, `_process_clips`, the completion callback
`_processing_done`) on an event.  Frames are modelled as natural numbers
(only identity and order matter), on-disk artifacts as the frame lists they
decode to, and wall-clock time as a rational number.
-/

namespace WhamDemo

/-- Buffer capacity, from realtimeDemo.py line 54:
the buffer is trimmed once its length exceeds
target_fps * (clip_duration + 1). -/
def capacity (fps clip_duration : Nat) : Nat := fps * (clip_duration + 1)

/-- One append of the capture loop (realtimeDemo.py lines 50-55):
frames_buffer.append(frame), then if the length exceeds the capacity,
frames_buffer.pop(0) removes the oldest entry. -/
def appendFrame {α : Type} (cap : Nat) (buf : List α) (f : α) : List α :=
  let b := buf ++ [f]
  if cap < b.length then b.drop 1 else b

/-- Python slice l[-n:]: the last n entries of l (all of l when n = 0 or
when n exceeds the length), used at realtimeDemo.py line 59. -/
def pythonSliceLast {α : Type} (n : Nat) (l : List α) : List α :=
  if n = 0 then l else l.drop (l.length - n)

/-- Observable phases of a clip job.  A job is created and submitted inside
the same `_process_clips` iteration, and the completion callback is its
only later transition, so these are the two observable phases. -/
inductive JobPhase : Type
  | submitted : JobPhase
  | released : JobPhase
deriving DecidableEq

/-- A clip job: the dictionary put on processing_queue at lines 87-92,
instrumented with an identifier (standing for the fresh temp directory
name) and its phase. -/
structure ClipJob : Type where
  id : Nat
  clip : List Nat
  phase : JobPhase
deriving DecidableEq

/-- The mutable attributes of WebcamProcessor (realtimeDemo.py lines
23-28), plus bookkeeping for created jobs and live scratch directories.
processing_queue holds the identifiers of the queued job dictionaries
(Queue(maxsize=2) at line 24; put is only ever called when the queue was
observed empty, so blocking on a full queue cannot occur).  scratch holds
the identifiers of the temp directories currently existing on disk. -/
structure WPState : Type where
  running : Bool
  frames_buffer : List Nat
  processing_queue : List Nat
  jobs : List ClipJob
  current_output : Option (List Nat)
  live_overlay : Option Nat
  scratch : List Nat
  nextId : Nat
deriving DecidableEq

/-- Events interleaving the three loops: one capture-loop iteration with
the result of cap.read() (none models a failed read), one assembler tick
of `_process_clips`, and one run of the completion callback
`_processing_done` for job id, with the success flag and the decoded
content of the expected artifact output/input_vis.mp4 (none models the
artifact being absent from the scratch output directory). -/
inductive Event : Type
  | capture : Option Nat → Event
  | tick : Event
  | complete : Nat → Bool → Option (List Nat) → Event
deriving DecidableEq

/-- The clip extracted by `_create_clip` (line 59):
frames_buffer[-target_fps * clip_duration:]. -/
def createClip (fps clip_duration : Nat) (s : WPState) : List Nat :=
  pythonSliceLast (fps * clip_duration) s.frames_buffer

/-- One iteration of `_process_clips` (lines 80-100): only when
processing_queue is empty and the buffer holds at least
fps * clip_duration frames does it create a clip, allocate a scratch
workspace, put the job on the queue, and submit it (phase submitted). -/
def processClipsTick (fps clip_duration : Nat) (s : WPState) : WPState :=
  if s.processing_queue.isEmpty ∧ fps * clip_duration ≤ s.frames_buffer.length then
    { s with
      processing_queue := s.processing_queue ++ [s.nextId],
      jobs := s.jobs ++ [⟨s.nextId, createClip fps clip_duration s, JobPhase.submitted⟩],
      scratch := s.scratch ++ [s.nextId],
      nextId := s.nextId + 1 }
  else s

/-- The completion callback `_processing_done` (lines 102-107): when
success and the artifact exists, current_output is replaced by the decoded
artifact; in every case the scratch directory is removed
(shutil.rmtree with ignore_errors) and the job becomes released.  Nothing
is removed from processing_queue.  The guard reflects that the dispatcher
invokes the callback exactly once, for a job it actually submitted:
completion events for identifiers not currently submitted are ignored. -/
def processingDone (s : WPState) (id : Nat) (success : Bool)
    (artifact : Option (List Nat)) : WPState :=
  if s.jobs.any fun j => decide (j.id = id ∧ j.phase = JobPhase.submitted) then
    { s with
      current_output :=
        match success, artifact with
        | true, some v => some v
        | _, _ => s.current_output,
      jobs := s.jobs.map fun j =>
        if j.id = id then { j with phase := JobPhase.released } else j,
      scratch := s.scratch.erase id }
  else s

/-- One atomic step of the pipeline.  All three loops run only while
self.running holds (lines 44, 81; the callback of a stopped run is a
no-op on the modelled state as well, since the state it mutates is only
read while running). -/
def step (fps clip_duration : Nat) (s : WPState) (e : Event) : WPState :=
  if s.running = true then
    match e with
    | Event.capture none => s
    | Event.capture (some f) =>
        { s with
          frames_buffer := appendFrame (capacity fps clip_duration) s.frames_buffer f,
          live_overlay := some f }
    | Event.tick => processClipsTick fps clip_duration s
    | Event.complete id success artifact => processingDone s id success artifact
  else s

/-- The state right after start() (line 38 sets running before the loops
begin); all containers start empty (lines 23-28). -/
def initState : WPState :=
  { running := true, frames_buffer := [], processing_queue := [], jobs := [],
    current_output := none, live_overlay := none, scratch := [], nextId := 0 }

/-- Run of the pipeline on a sequence of interleaved events. -/
def run (fps clip_duration : Nat) (es : List Event) : WPState :=
  es.foldl (step fps clip_duration) initState

/-- Number of jobs currently in the submitted phase. -/
def countSubmitted (s : WPState) : Nat :=
  s.jobs.countP fun j => decide (j.phase = JobPhase.submitted)

/-- Inductive invariant of the pipeline: every created job was put on the
queue and nothing ever removes a queue entry, so the queue length equals
the number of created jobs; the tick guard then bounds the total number of
jobs by one. -/
def Inv (s : WPState) : Prop :=
  s.processing_queue.length = s.nextId ∧ s.jobs.length = s.nextId ∧
    s.nextId ≤ 1 ∧ countSubmitted s ≤ s.processing_queue.length

/-- Python int() on a rational: truncation toward zero. -/
def pythonInt (q : ℚ) : ℤ := if q < 0 then -((-q).floor) else q.floor

/-- The playback index computed by `_display_loop` (line 133):
min(int(t * target_fps) % L, L - 1) for a result sequence of length L at
wall-clock time t (Python % with a positive modulus agrees with emod).
Meaningful only for L ≥ 1: at L = 0 line 133 raises ZeroDivisionError;
that error path is modelled in renderTick, which never consults this
function with L = 0. -/
def displayCursor (fps L : Nat) (t : ℚ) : ℤ :=
  min (pythonInt (t * (fps : ℚ)) % (L : ℤ)) ((L : ℤ) - 1)

/-- Modelled from the spec wording, for refinement comparison only: the
Playback Cursor computed as floor(now × fps) mod length, clamped to
length − 1 (spec sections 3 and 8). -/
def specCursor (fps L : Nat) (t : ℚ) : ℤ :=
  min (⌊t * (fps : ℚ)⌋ % (L : ℤ)) ((L : ℤ) - 1)

/-- Abstraction of the composite frame assembled by one `_display_loop`
iteration (lines 120-145).  liveHalf is the content of the left half
(none = the zeros background), processedHalf the right half
(none = zeros), overlay the small corner overlay when still visible. -/
structure Composite : Type where
  liveHalf : Option Nat
  processedHalf : Option Nat
  overlay : Option Nat
deriving DecidableEq

/-- One display tick (lines 120-145), none modelling a raised exception.
The zeros canvas is drawn, then the scaled live_overlay corner.  Only when
current_output is present does the loop reach line 133: there, if the held
result sequence is empty, the expression % len(self.current_output) raises
ZeroDivisionError before either half is assigned, and the display loop
crashes producing no composite (none).  Otherwise it copies
frames_buffer[-1] (or zeros when the buffer is empty) over the whole left
half — overwriting the overlay corner — and the cursor-selected processed
frame over the right half.  When current_output is none both halves keep
the zeros background. -/
def renderTick (fps : Nat) (s : WPState) (t : ℚ) : Option Composite :=
  match s.current_output with
  | none =>
      some { liveHalf := none, processedHalf := none, overlay := s.live_overlay }
  | some out =>
      if out.length = 0 then none
      else
        some { liveHalf := s.frames_buffer.getLast?,
               processedHalf :=
                 some (out.getD (displayCursor fps out.length t).toNat 0),
               overlay := none }

/-! Helper lemmas about the capture loop and the rolling buffer. -/

theorem step_capture_none (fps clip_duration : Nat) (s : WPState) :
    step fps clip_duration s (Event.capture none) = s := by
  by_cases hr : s.running = true <;> simp [step, hr]

theorem step_capture_some (fps clip_duration : Nat) (s : WPState) (f : Nat)
    (hr : s.running = true) :
    step fps clip_duration s (Event.capture (some f)) =
      { s with
        frames_buffer := appendFrame (capacity fps clip_duration) s.frames_buffer f,
        live_overlay := some f } := by
  simp [step, hr]

theorem foldl_appendFrame_eq_drop {α : Type} (cap : Nat) (fs : List α) :
    fs.foldl (appendFrame cap) [] = fs.drop (fs.length - cap) := by
  induction fs using List.reverseRecOn with
  | nil => simp
  | append_singleton fs a ih =>
    rw [List.foldl_concat, ih]
    by_cases h : cap ≤ fs.length
    · have hlen : (fs.drop (fs.length - cap)).length = cap := by
        rw [List.length_drop]; omega
      have hdrop : fs.length - cap ≤ fs.length := by omega
      unfold appendFrame
      rw [if_pos]
      · rw [← List.drop_append_of_le_length hdrop, List.drop_drop]
        have hidx : fs.length - cap + 1 = (fs ++ [a]).length - cap := by
          rw [List.length_append]; simp; omega
        rw [hidx]
      · rw [List.length_append, hlen]; simp
    · have h0 : fs.length - cap = 0 := by omega
      have h1 : (fs ++ [a]).length - cap = 0 := by
        rw [List.length_append]; simp; omega
      unfold appendFrame
      rw [if_neg]
      · rw [h0, h1, List.drop_zero, List.drop_zero]
      · rw [h0, List.drop_zero, List.length_append]
        simp; omega

theorem captures_foldl (fps clip_duration : Nat) (fs : List Nat) :
    ∀ (s : WPState), s.running = true →
      ((fs.map fun f => Event.capture (some f)).foldl (step fps clip_duration) s).frames_buffer
        = fs.foldl (appendFrame (capacity fps clip_duration)) s.frames_buffer := by
  induction fs with
  | nil => intro s _; simp
  | cons f fs ih =>
    intro s hr
    simp only [List.map_cons, List.foldl_cons]
    rw [step_capture_some fps clip_duration s f hr]
    exact ih _ hr

/-! Helper lemmas for the single-in-flight invariant. -/

theorem inv_initState : Inv initState := by
  constructor
  · rfl
  · constructor
    · rfl
    · constructor
      · decide
      · exact Nat.le_refl 0

theorem inv_step (fps clip_duration : Nat) (s : WPState) (e : Event)
    (h : Inv s) : Inv (step fps clip_duration s e) := by
  obtain ⟨h1, h2, h3, h4⟩ := h
  by_cases hr : s.running = true
  · cases e with
    | capture r =>
      cases r with
      | none => simp only [step, hr, if_true]; exact ⟨h1, h2, h3, h4⟩
      | some f =>
        simp only [step, hr, if_true]
        exact ⟨h1, h2, h3, h4⟩
    | tick =>
      simp only [step, hr, if_true]
      unfold processClipsTick
      by_cases hc : s.processing_queue.isEmpty = true ∧
          fps * clip_duration ≤ s.frames_buffer.length
      · rw [if_pos hc]
        have hq : s.processing_queue = [] := by
          simpa [List.isEmpty_iff] using hc.1
        have hq0 : s.processing_queue.length = 0 := by rw [hq]; rfl
        refine ⟨?_, ?_, ?_, ?_⟩
        · show (s.processing_queue ++ [s.nextId]).length = s.nextId + 1
          simp [h1]
        · show (s.jobs ++
              [(⟨s.nextId, createClip fps clip_duration s,
                  JobPhase.submitted⟩ : ClipJob)]).length = s.nextId + 1
          simp [h2]
        · show s.nextId + 1 ≤ 1
          rw [← h1, hq0]
        · show List.countP (fun j => decide (j.phase = JobPhase.submitted))
              (s.jobs ++
                [(⟨s.nextId, createClip fps clip_duration s,
                    JobPhase.submitted⟩ : ClipJob)])
            ≤ (s.processing_queue ++ [s.nextId]).length
          rw [List.countP_append, List.length_append]
          have hone : List.countP
              (fun j => decide (j.phase = JobPhase.submitted))
              [(⟨s.nextId, createClip fps clip_duration s,
                  JobPhase.submitted⟩ : ClipJob)] = 1 := by
            simp [List.countP_cons]
          unfold countSubmitted at h4
          rw [hone]
          exact Nat.add_le_add_right h4 1
      · rw [if_neg hc]; exact ⟨h1, h2, h3, h4⟩
    | complete id success artifact =>
      simp only [step, hr, if_true]
      unfold processingDone
      by_cases hg : (s.jobs.any fun j =>
          decide (j.id = id ∧ j.phase = JobPhase.submitted)) = true
      · rw [if_pos hg]
        refine ⟨h1, ?_, h3, ?_⟩
        · simpa [List.length_map] using h2
        · unfold countSubmitted at h4 ⊢
          simp only [List.countP_map]
          refine le_trans (le_trans (List.countP_mono_left ?_) h4) (le_refl _)
          intro j _ hpj
          by_cases hid : j.id = id
          · simp [Function.comp, hid] at hpj
          · simpa [Function.comp, hid] using hpj
      · rw [if_neg hg]; exact ⟨h1, h2, h3, h4⟩
  · simp only [step, hr, if_false]; exact ⟨h1, h2, h3, h4⟩

theorem inv_foldl (fps clip_duration : Nat) (es : List Event) :
    ∀ (s : WPState), Inv s → Inv (es.foldl (step fps clip_duration) s) := by
  induction es with
  | nil => intro s h; exact h
  | cons e es ih =>
    intro s h
    exact ih _ (inv_step fps clip_duration s e h)

theorem inv_run (fps clip_duration : Nat) (es : List Event) :
    Inv (run fps clip_duration es) :=
  inv_foldl fps clip_duration es initState inv_initState

theorem step_queue_cases (fps clip_duration : Nat) (s : WPState) (e : Event) :
    (step fps clip_duration s e).processing_queue = s.processing_queue ∨
      (step fps clip_duration s e).processing_queue
        = s.processing_queue ++ [s.nextId] := by
  by_cases hr : s.running = true
  · cases e with
    | capture r =>
      cases r with
      | none => left; simp [step, hr]
      | some f => left; simp [step, hr]
    | tick =>
      simp only [step, hr, if_true]
      unfold processClipsTick
      by_cases hc : s.processing_queue.isEmpty = true ∧
          fps * clip_duration ≤ s.frames_buffer.length
      · right; rw [if_pos hc]
      · left; rw [if_neg hc]
    | complete id success artifact =>
      simp only [step, hr, if_true]
      unfold processingDone
      by_cases hg : (s.jobs.any fun j =>
          decide (j.id = id ∧ j.phase = JobPhase.submitted)) = true
      · left; rw [if_pos hg]
      · left; rw [if_neg hg]
  · left; simp [step, hr]

theorem step_nextId_changed (fps clip_duration : Nat) (s : WPState) (e : Event)
    (h : (step fps clip_duration s e).nextId ≠ s.nextId) :
    s.processing_queue = [] ∧ fps * clip_duration ≤ s.frames_buffer.length := by
  by_cases hr : s.running = true
  · cases e with
    | capture r =>
      cases r with
      | none => simp [step, hr] at h
      | some f => simp [step, hr] at h
    | tick =>
      simp only [step, hr, if_true] at h
      unfold processClipsTick at h
      by_cases hc : s.processing_queue.isEmpty = true ∧
          fps * clip_duration ≤ s.frames_buffer.length
      · refine ⟨?_, hc.2⟩
        simpa [List.isEmpty_iff] using hc.1
      · rw [if_neg hc] at h; exact absurd rfl h
    | complete id success artifact =>
      simp only [step, hr, if_true] at h
      unfold processingDone at h
      by_cases hg : (s.jobs.any fun j =>
          decide (j.id = id ∧ j.phase = JobPhase.submitted)) = true
      · rw [if_pos hg] at h; exact absurd rfl h
      · rw [if_neg hg] at h; exact absurd rfl h
  · simp [step, hr] at h

theorem foldl_queue_persist (fps clip_duration : Nat) (es : List Event) :
    ∀ (s : WPState), s.processing_queue ≠ [] →
      (es.foldl (step fps clip_duration) s).processing_queue ≠ [] := by
  induction es with
  | nil => intro s h; exact h
  | cons e es ih =>
    intro s h
    refine ih _ ?_
    rcases step_queue_cases fps clip_duration s e with hq | hq
    · rw [hq]; exact h
    · rw [hq]; simp

/-! Helper lemma for the playback cursor. -/

theorem pythonInt_eq_floor (q : ℚ) (h : 0 ≤ q) : pythonInt q = ⌊q⌋ := by
  unfold pythonInt
  rw [if_neg (not_lt.mpr h), Rat.floor_def', Rat.floor_def]

/-! Claim theorems. -/

set_option maxRecDepth 100000

/-- Claim C2: for every sequence of append operations performed by the
capture stage, starting from an empty buffer, the Rolling Capture Buffer
never exceeds fps × (clip_duration + 1) entries and holds exactly the most
recently appended frames in capture order, the oldest having been evicted
first (the sequence fs of appended frames is arbitrary, so this covers the
state after each individual append). -/
theorem rolling_buffer_bounded_and_recent (fps clip_duration : Nat)
    (fs : List Nat) :
    (run fps clip_duration
        (fs.map fun f => Event.capture (some f))).frames_buffer
      = fs.drop (fs.length - fps * (clip_duration + 1)) ∧
    (run fps clip_duration
        (fs.map fun f => Event.capture (some f))).frames_buffer.length
      ≤ fps * (clip_duration + 1) := by
  have hb : (run fps clip_duration
      (fs.map fun f => Event.capture (some f))).frames_buffer
      = fs.foldl (appendFrame (capacity fps clip_duration)) [] :=
    captures_foldl fps clip_duration fs initState rfl
  rw [hb, foldl_appendFrame_eq_drop]
  constructor
  · rfl
  · rw [List.length_drop]
    unfold capacity
    omega

/-- Claim C3: for any interleaving of capture iterations, assembler ticks
and dispatcher completions in a single run, at most one clip job is in the
submitted phase at any instant; and a new clip job is created (nextId
advances) only when the pending queue was observed empty and the buffer
held at least fps × clip_duration frames. -/
theorem at_most_one_submitted (fps clip_duration : Nat) :
    (∀ es : List Event, countSubmitted (run fps clip_duration es) ≤ 1) ∧
    (∀ (s : WPState) (e : Event),
        (step fps clip_duration s e).nextId ≠ s.nextId →
          s.processing_queue = [] ∧
            fps * clip_duration ≤ s.frames_buffer.length) := by
  constructor
  · intro es
    obtain ⟨h1, _, h3, h4⟩ := inv_run fps clip_duration es
    omega
  · exact step_nextId_changed fps clip_duration

/-- Witness for claim C3: a concrete run with one submission. -/
theorem at_most_one_submitted_witness :
    countSubmitted (run 1 1 [Event.capture (some 5), Event.tick]) ≤ 1 ∧
      ((run 1 1 [Event.capture (some 5)]).processing_queue = [] ∧
        1 * 1 ≤ (run 1 1 [Event.capture (some 5)]).frames_buffer.length) :=
  ⟨(at_most_one_submitted 1 1).1 [Event.capture (some 5), Event.tick],
   (at_most_one_submitted 1 1).2 (run 1 1 [Event.capture (some 5)])
      Event.tick (by decide)⟩

/-- Claim C10: no operation removes an item from processing_queue — every
step leaves the queue unchanged or appends one entry — so once the
assembler enqueues its first clip job the queue remains non-empty for the
remainder of the run, and any single run creates at most one clip job in
total. -/
theorem queue_never_consumed (fps clip_duration : Nat) :
    (∀ (s : WPState) (e : Event),
        (step fps clip_duration s e).processing_queue = s.processing_queue ∨
          (step fps clip_duration s e).processing_queue
            = s.processing_queue ++ [s.nextId]) ∧
    (∀ es es' : List Event,
        (run fps clip_duration es).processing_queue ≠ [] →
          (run fps clip_duration (es ++ es')).processing_queue ≠ []) ∧
    (∀ es : List Event, (run fps clip_duration es).jobs.length ≤ 1) := by
  refine ⟨step_queue_cases fps clip_duration, ?_, ?_⟩
  · intro es es' h
    unfold run
    rw [List.foldl_append]
    exact foldl_queue_persist fps clip_duration es' _ h
  · intro es
    obtain ⟨_, h2, h3, _⟩ := inv_run fps clip_duration es
    omega

/-- Witness for claim C10: after the first submission the queue stays
non-empty through further ticks and a completion. -/
theorem queue_never_consumed_witness :
    (run 1 1 ([Event.capture (some 5), Event.tick] ++
        [Event.tick, Event.complete 0 true (some [7])])).processing_queue
      ≠ [] ∧
    (run 1 1 [Event.capture (some 5), Event.tick]).jobs.length ≤ 1 :=
  ⟨(queue_never_consumed 1 1).2.1 [Event.capture (some 5), Event.tick]
      [Event.tick, Event.complete 0 true (some [7])] (by decide),
   (queue_never_consumed 1 1).2.2 [Event.capture (some 5), Event.tick]⟩

/-- Claim C1 (code bug): the completion callback `_processing_done` never
removes the submitted entry from processing_queue, so the pending
submission slot is NOT cleared: after a successful completion the queue
still holds the entry, the released run has no submitted job left, the
buffer holds enough frames for a new clip, and yet the subsequent
assembler tick creates no new clip job (nextId stays 1). -/
theorem completion_leaves_slot_occupied :
    (run 1 1 [Event.capture (some 5), Event.tick,
        Event.complete 0 true (some [7]), Event.tick]).processing_queue
      = [0] ∧
    countSubmitted (run 1 1 [Event.capture (some 5), Event.tick,
        Event.complete 0 true (some [7]), Event.tick]) = 0 ∧
    1 * 1 ≤ (run 1 1 [Event.capture (some 5), Event.tick,
        Event.complete 0 true (some [7]), Event.tick]).frames_buffer.length ∧
    (run 1 1 [Event.capture (some 5), Event.tick,
        Event.complete 0 true (some [7]), Event.tick]).nextId = 1 := by
  decide

/-- Claim C4: when the completion callback runs for a submitted job, a
failed completion — or a successful one whose artifact is absent — leaves
current_output exactly as it was; a successful completion whose artifact
decodes to v sets current_output to exactly v; and in every case the
job's scratch workspace is deleted. -/
theorem completion_result_holder_and_cleanup (fps clip_duration : Nat)
    (s : WPState) (id : Nat) (success : Bool) (artifact : Option (List Nat))
    (hr : s.running = true)
    (hsub : (s.jobs.any fun j =>
        decide (j.id = id ∧ j.phase = JobPhase.submitted)) = true)
    (hnd : s.scratch.Nodup) :
    ((success = false ∨ artifact = none) →
        (step fps clip_duration s
            (Event.complete id success artifact)).current_output
          = s.current_output) ∧
    (∀ v : List Nat, success = true → artifact = some v →
        (step fps clip_duration s
            (Event.complete id success artifact)).current_output = some v) ∧
    id ∉ (step fps clip_duration s
        (Event.complete id success artifact)).scratch := by
  simp only [step, hr, if_true]
  unfold processingDone
  rw [if_pos hsub]
  refine ⟨?_, ?_, ?_⟩
  · rintro (hs | ha)
    · subst hs; cases artifact <;> rfl
    · subst ha; cases success <;> rfl
  · intro v hs ha
    subst hs; subst ha; rfl
  · exact hnd.not_mem_erase

/-- Witness for claim C4: a failed completion of the one submitted job in
a concrete run. -/
theorem completion_result_holder_and_cleanup_witness :
    (run 1 1 [Event.capture (some 5), Event.tick]).scratch.Nodup ∧
      0 ∉ (step 1 1 (run 1 1 [Event.capture (some 5), Event.tick])
          (Event.complete 0 false none)).scratch :=
  ⟨by decide,
   (completion_result_holder_and_cleanup 1 1
      (run 1 1 [Event.capture (some 5), Event.tick]) 0 false none
      (by decide) (by decide) (by decide)).2.2⟩

/-- Claim C6 counterexample: a failed camera read does not signal the stop
condition — from the started initial state the capture iteration leaves
running true and the whole state unchanged, contradicting the claim that
source exhaustion is treated as fatal and signals stop. -/
theorem failed_read_does_not_signal_stop :
    (step 30 1 initState (Event.capture none)).running = true ∧
      step 30 1 initState (Event.capture none) = initState := by
  decide

/-- Claim C6 (amended): when the device read returns no frame the capture
loop body is a no-op — the frame is skipped and the loop retries, leaving
the whole state, including the shared stop flag, unchanged; the stop
condition is not signalled and the other stages keep running. -/
theorem failed_read_is_skipped (fps clip_duration : Nat) (s : WPState) :
    step fps clip_duration s (Event.capture none) = s := by
  by_cases hr : s.running = true <;> simp [step, hr]

/-- Claim C7 counterexample: with fps = 30 and clip_duration = 1 (capacity
90), after appending exactly 45 frames the buffer holds 45 frames,
tail(30) returns exactly 30 frames (not fewer), and the assembler tick
does create and submit a clip job — refuting the claimed underrun. -/
theorem fortyfive_frames_no_underrun :
    (run 30 1
        ((List.range 45).map fun f => Event.capture (some f))).frames_buffer.length
      = 45 ∧
    (createClip 30 1 (run 30 1
        ((List.range 45).map fun f => Event.capture (some f)))).length = 30 ∧
    (run 30 1 ((List.range 45).map fun f => Event.capture (some f))).nextId
      = 0 ∧
    (step 30 1 (run 30 1
        ((List.range 45).map fun f => Event.capture (some f)))
        Event.tick).nextId = 1 := by
  decide

/-- Claim C7 (amended): with fps = 30 and clip_duration = 1 (capacity 90),
after appending exactly 29 frames — fewer than the fps × clip_duration =
30 needed — tail(30) returns only 29 frames (buffer underrun) and the
assembler tick creates no clip job: the state is unchanged. -/
theorem twentynine_frames_underrun :
    (createClip 30 1 (run 30 1
        ((List.range 29).map fun f => Event.capture (some f)))).length = 29 ∧
    step 30 1 (run 30 1
        ((List.range 29).map fun f => Event.capture (some f))) Event.tick
      = run 30 1 ((List.range 29).map fun f => Event.capture (some f)) := by
  decide

/-- Claim C5: for every result sequence length L ≥ 1 and every elapsed
time t ≥ 0, the playback cursor computed by the display loop equals the
spec formula min(floor(t × fps) mod L, L − 1). -/
theorem cursor_matches_spec (fps L : Nat) (t : ℚ) (hL : 1 ≤ L)
    (ht : 0 ≤ t) : displayCursor fps L t = specCursor fps L t := by
  unfold displayCursor specCursor
  rw [pythonInt_eq_floor _ (mul_nonneg ht (by positivity))]

/-- Witness for claim C5 at fps = 30, L = 10, t = 0. -/
theorem cursor_matches_spec_witness :
    displayCursor 30 10 0 = specCursor 30 10 0 :=
  cursor_matches_spec 30 10 0 (by decide) (le_refl 0)

/-- Claim C8 counterexample: with fps = 30 and a 10-frame result sequence,
at t = 0.5 s the display loop's cursor is min(15 mod 10, 9) = 5, not
min(15, 9) = 9 as the claim computes (the claim drops the mod). -/
theorem cursor_at_half_second_not_nine :
    displayCursor 30 10 (1/2 : ℚ) = 5 ∧
      ¬ displayCursor 30 10 (1/2 : ℚ) = 9 := by
  have h15 : (⌊(1/2 : ℚ) * ((30 : Nat) : ℚ)⌋ : ℤ) = 15 := by norm_num
  have h : displayCursor 30 10 (1/2 : ℚ) = 5 := by
    unfold displayCursor
    rw [pythonInt_eq_floor _ (by norm_num), h15]
    decide
  exact ⟨h, by rw [h]; decide⟩

/-- Claim C8 (amended): after a successful completion whose artifact
decodes to a 10-frame result sequence, the result holder holds exactly
that sequence, and with fps = 30 the playback cursor at t = 0.0 s equals
0 and at t = 0.5 s equals min(15 mod 10, 9) = 5. -/
theorem cursor_scenario_three :
    (run 30 1 (((List.range 30).map fun f => Event.capture (some f)) ++
        [Event.tick, Event.complete 0 true
          (some (List.range 10))])).current_output
      = some (List.range 10) ∧
    displayCursor 30 10 0 = 0 ∧ displayCursor 30 10 (1/2 : ℚ) = 5 := by
  have h15 : (⌊(1/2 : ℚ) * ((30 : Nat) : ℚ)⌋ : ℤ) = 15 := by norm_num
  have h0 : (⌊(0 : ℚ) * ((30 : Nat) : ℚ)⌋ : ℤ) = 0 := by norm_num
  refine ⟨by decide, ?_, ?_⟩
  · unfold displayCursor
    rw [pythonInt_eq_floor _ (by norm_num), h0]
    decide
  · unfold displayCursor
    rw [pythonInt_eq_floor _ (by norm_num), h15]
    decide

/-- Claim C9 counterexample: when the result holder is empty
(current_output = none) the display tick does not fill the live half of
the composite from the buffer's most recent frame: with one captured
frame the buffer's latest entry is 5 yet the composite's live half is
the zeros background (only the small corner overlay shows the frame). -/
theorem live_half_not_filled_without_result :
    (run 30 1 [Event.capture (some 5)]).frames_buffer.getLast? = some 5 ∧
    (run 30 1 [Event.capture (some 5)]).current_output = none ∧
    renderTick 30 (run 30 1 [Event.capture (some 5)]) 0
      = some { liveHalf := none, processedHalf := none,
               overlay := some 5 } := by
  decide

/-- Claim C9 (amended): a display tick is a pure read of the state (the
buffer is read without removing anything); when a non-empty result
sequence is present the live half is filled from the buffer's most recent
frame (or the zeros background when the buffer is empty) and the
processed half shows the cursor-selected result frame; when the result
holder holds no result the processed half is the blank zeros background
as claimed, but the live half is also the zeros background — only the
small corner overlay of the last captured frame is drawn; and when the
held result sequence is empty the tick raises ZeroDivisionError at line
133 and assembles no composite at all. -/
theorem display_tick_halves (fps : Nat) (s : WPState) (t : ℚ) :
    (∀ out : List Nat, s.current_output = some out → out ≠ [] →
        renderTick fps s t
          = some { liveHalf := s.frames_buffer.getLast?,
                   processedHalf :=
                     some (out.getD (displayCursor fps out.length t).toNat 0),
                   overlay := none }) ∧
    (s.current_output = none →
        renderTick fps s t
          = some { liveHalf := none, processedHalf := none,
                   overlay := s.live_overlay }) ∧
    (s.current_output = some [] → renderTick fps s t = none) := by
  refine ⟨?_, ?_, ?_⟩
  · intro out hout hne
    have hlen : ¬ out.length = 0 := by
      simpa [List.length_eq_zero] using hne
    simp [renderTick, hout, hlen]
  · intro hnone
    simp [renderTick, hnone]
  · intro hnil
    simp [renderTick, hnil]

/-- Witness for claim C9 (amended): a concrete run whose completion put a
non-empty (one-frame) result in the holder. -/
theorem display_tick_halves_witness :
    renderTick 1 (run 1 1 [Event.capture (some 5), Event.tick,
        Event.complete 0 true (some [7])]) 0
      = some (Composite.mk
          (run 1 1 [Event.capture (some 5), Event.tick,
            Event.complete 0 true (some [7])]).frames_buffer.getLast?
          (some (([7] : List Nat).getD
            (displayCursor 1 ([7] : List Nat).length 0).toNat 0))
          none) :=
  (display_tick_halves 1
      (run 1 1 [Event.capture (some 5), Event.tick,
        Event.complete 0 true (some [7])]) 0).1 [7] (by decide) (by decide)

end WhamDemo
